import Mathlib

/-!
Verification of the wlgreet surface-lifecycle / rendering engine.

Shallow embedding of the Rust sources:
  - src/doublemempool.rs : DoubleMemPool (two shm pools, alternating)
  - src/app.rs           : AppInner.outputs_changed / add_output / remove_output
                           and App.redraw, as state-transition functions that
                           additionally emit a trace of protocol operations
  - src/main.rs          : the command-queue drain loop
  - src/cmd.rs           : the Cmd enum
  - the keyboard callback installed in App::new

External effects (wayland protocol calls, buffer writes) are recorded as
trace events; external state (whether the server still holds a buffer,
the widget draw report) is passed in as parameters, matching the points
where the Rust code reads them.
-/

namespace Wlgreet

/-! ## DoubleMemPool (src/doublemempool.rs)

The two MemPools are identified as slot 1 (pool1) and slot 2 (pool2).
The only state the pool code itself mutates is the boolean `switch`;
whether each pool is still used by the server (`MemPool::is_used`) is
external state that changes between calls, so it is carried alongside. -/

structure PoolState where
  switch : Bool
  used1 : Bool
  used2 : Bool
  deriving DecidableEq, Repr

/-- Slot chosen as current for a given value of `switch`:
`if switch { (pool2, pool1) } else { (pool1, pool2) }` — cur is the second. -/
def curSlot (switch : Bool) : Nat := if switch then 1 else 2

/-- Slot chosen as last (previous) for a given value of `switch`. -/
def lastSlot (switch : Bool) : Nat := if switch then 2 else 1

/-- Whether the given slot (1 or 2) is still marked used by the server. -/
def slotUsed (p : PoolState) (slot : Nat) : Bool :=
  if slot = 1 then p.used1 else p.used2

/-- DoubleMemPool::pool. Reads `switch`, negates it, picks (last, cur) from
the old value, and returns None if cur is still in use. Returns the updated
state together with the optional (last, cur) slot pair. -/
def PoolState.pool (p : PoolState) : PoolState × Option (Nat × Nat) :=
  let switch := p.switch
  let p' : PoolState := { p with switch := !p.switch }
  let last := lastSlot switch
  let cur := curSlot switch
  if slotUsed p cur = true then (p', none) else (p', some (last, cur))

theorem pool_fst (p : PoolState) : (p.pool).1 = { p with switch := !p.switch } := by
  simp only [PoolState.pool]
  split <;> rfl

theorem pool_snd_none (p : PoolState) (h : slotUsed p (curSlot p.switch) = true) :
    (p.pool).2 = none := by
  simp only [PoolState.pool]
  simp [h]

theorem pool_snd_some (p : PoolState) (h : slotUsed p (curSlot p.switch) = false) :
    (p.pool).2 = some (lastSlot p.switch, curSlot p.switch) := by
  simp only [PoolState.pool]
  simp [h]

theorem pool_snd_some_inv (p : PoolState) (lc : Nat × Nat) (h : (p.pool).2 = some lc) :
    lc = (lastSlot p.switch, curSlot p.switch) := by
  simp only [PoolState.pool] at h
  split at h
  · simp at h
  · simp at h
    exact h.symm

/-- Claim C4: for consecutive calls to DoubleMemPool::pool that return Some,
the slot returned as current alternates between the two pools, and the slot
returned as previous equals the slot returned as current by the immediately
preceding call. The second call starts from the switch value left by the
first call; the server-owned flags may have changed arbitrarily in between. -/
theorem C4_pool_alternates (p q : PoolState)
    (hnext : q.switch = ((p.pool).1).switch)
    (l₁ c₁ l₂ c₂ : Nat)
    (h₁ : (p.pool).2 = some (l₁, c₁))
    (h₂ : (q.pool).2 = some (l₂, c₂)) :
    c₂ ≠ c₁ ∧ l₂ = c₁ := by
  have e₁ := pool_snd_some_inv p _ h₁
  have e₂ := pool_snd_some_inv q _ h₂
  have hc₁ : c₁ = curSlot p.switch := congrArg Prod.snd e₁
  have hl₂ : l₂ = lastSlot q.switch := congrArg Prod.fst e₂
  have hc₂ : c₂ = curSlot q.switch := congrArg Prod.snd e₂
  rw [pool_fst] at hnext
  subst hc₁ hl₂ hc₂
  rw [hnext]
  cases p.switch <;> simp [curSlot, lastSlot]

theorem C4_pool_alternates_witness : (1 : Nat) ≠ 2 ∧ (2 : Nat) = 2 :=
  C4_pool_alternates ⟨false, false, false⟩ ⟨true, false, false⟩
    (by decide) 1 2 2 1 (by decide) (by decide)

/-- Claim C10: DoubleMemPool::pool flips the current/previous designation on
every call, including calls returning None (the switch update happens before
the busy check), so two immediately consecutive calls never select the same
slot as current. -/
theorem C10_pool_always_flips (p : PoolState) :
    ((p.pool).1).switch = !p.switch ∧
    curSlot ((p.pool).1).switch ≠ curSlot p.switch := by
  rw [pool_fst]
  refine ⟨rfl, ?_⟩
  cases p.switch <;> simp [curSlot]

/-! ## Surface lifecycle (src/app.rs, AppInner)

Surfaces are identified by numeric ids; `next_id` is a fresh-id source
standing for allocation of new protocol objects. Protocol side effects of
outputs_changed are recorded as `SEv` trace events in program order. -/

inductive OutputMode where
  | all
  | active
  deriving DecidableEq, Repr

structure AppInner where
  hasCompositor : Bool
  hasShell : Bool
  surfaces : List Nat
  shell_surfaces : List Nat
  configured_surfaces : Nat
  outputs : List (Nat × Nat)
  output_mode : OutputMode
  visible : Bool
  scale : Nat
  next_id : Nat
  deriving DecidableEq, Repr

inductive SEv where
  | destroyShell (id : Nat)
  | destroySurface (id : Nat)
  | resetCounter
  | createSurface (id : Nat) (output : Option Nat)
  | forceDraw
  | releaseOutput (id : Nat)
  deriving DecidableEq, Repr

def SEv.isCreate : SEv → Bool
  | .createSurface _ _ => true
  | _ => false

/-- The per-output creation loop of the OutputMode::All branch: one call to
add_shell_surface per known output, bound to that output, yielding the new
surface ids and the creation events in loop order. -/
def createAll (nid : Nat) : List (Nat × Nat) → List Nat × List SEv
  | [] => ([], [])
  | o :: rest =>
    let tail := createAll (nid + 1) rest
    (nid :: tail.1, SEv.createSurface nid (some o.1) :: tail.2)

/-- AppInner::outputs_changed. Returns early if the layer shell or the
compositor global is not yet bound; otherwise destroys every shell surface
and surface, installs a fresh configured counter at 0, and (while visible)
recreates surfaces according to the output mode. In Active mode with a
non-empty shell_surfaces list the function returns early after the destroy
loop and the counter reset, without reassigning the surface vectors. -/
def outputs_changed (s : AppInner) : AppInner × List SEv :=
  if s.hasShell = false then (s, [])
  else if s.hasCompositor = false then (s, [])
  else
    let destroys := s.shell_surfaces.map SEv.destroyShell ++ s.surfaces.map SEv.destroySurface
    let s1 := { s with configured_surfaces := 0 }
    if s.visible = true then
      match s.output_mode with
      | OutputMode.active =>
        if 0 < s.shell_surfaces.length then
          (s1, destroys ++ [SEv.resetCounter])
        else
          ({ s1 with surfaces := [s1.next_id], shell_surfaces := [s1.next_id],
                     next_id := s1.next_id + 1 },
            destroys ++ [SEv.resetCounter] ++
              [SEv.createSurface s1.next_id none, SEv.forceDraw])
      | OutputMode.all =>
        let created := createAll s1.next_id s.outputs
        ({ s1 with surfaces := created.1, shell_surfaces := created.1,
                   next_id := s1.next_id + s.outputs.length },
          destroys ++ [SEv.resetCounter] ++ created.2 ++ [SEv.forceDraw])
    else
      ({ s1 with surfaces := [], shell_surfaces := [] },
        destroys ++ [SEv.resetCounter])

/-- AppInner::add_output: push the new output, then outputs_changed. -/
def add_output (s : AppInner) (id ver : Nat) : AppInner × List SEv :=
  outputs_changed { s with outputs := s.outputs ++ [(id, ver)] }

/-- AppInner::remove_output: if the id is known, release it when its version
is at least 3, filter it out of the output list, then outputs_changed. -/
def remove_output (s : AppInner) (id : Nat) : AppInner × List SEv :=
  match s.outputs.find? (fun o => o.1 = id) with
  | none => (s, [])
  | some o =>
    let rel := if 3 ≤ o.2 then [SEv.releaseOutput id] else []
    let r := outputs_changed
      { s with outputs := s.outputs.filter (fun p => p.1 ≠ id) }
    (r.1, rel ++ r.2)

/-- The trace splits into a teardown prefix with no creation events and a
creation suffix with only creation events (plus the ForceDraw enqueue); if
any surface is created, then the prefix already contains the counter reset
and a destroy for every previously held shell surface and surface. -/
def teardownThenCreate (shellIds surfIds : List Nat) (t : List SEv) : Prop :=
  ∃ t₁ t₂, t = t₁ ++ t₂ ∧
    (∀ e ∈ t₁, SEv.isCreate e = false) ∧
    (∀ e ∈ t₂, SEv.isCreate e = true ∨ e = SEv.forceDraw) ∧
    ((∃ e ∈ t₂, SEv.isCreate e = true) →
      SEv.resetCounter ∈ t₁ ∧
      (∀ i ∈ shellIds, SEv.destroyShell i ∈ t₁) ∧
      (∀ i ∈ surfIds, SEv.destroySurface i ∈ t₁))

theorem createAll_events (outs : List (Nat × Nat)) :
    ∀ nid, ∀ e ∈ (createAll nid outs).2, SEv.isCreate e = true := by
  induction outs with
  | nil => intro nid e he; simp [createAll] at he
  | cons o rest ih =>
    intro nid e he
    simp only [createAll, List.mem_cons] at he
    rcases he with h | h
    · subst h; rfl
    · exact ih (nid + 1) e h

theorem destroys_no_create (s : AppInner) :
    ∀ e ∈ s.shell_surfaces.map SEv.destroyShell ++
          s.surfaces.map SEv.destroySurface ++ [SEv.resetCounter],
      SEv.isCreate e = false := by
  intro e he
  simp only [List.mem_append, List.mem_map, List.mem_singleton] at he
  rcases he with (⟨i, _, h⟩ | ⟨i, _, h⟩) | h <;> subst h <;> rfl

theorem outputs_changed_teardownThenCreate (s : AppInner) :
    teardownThenCreate s.shell_surfaces s.surfaces (outputs_changed s).2 := by
  unfold outputs_changed
  by_cases hsh : s.hasShell = false
  · exact ⟨[], [], by simp [hsh], by simp, by simp, by simp⟩
  by_cases hco : s.hasCompositor = false
  · exact ⟨[], [], by simp [hsh, hco], by simp, by simp, by simp⟩
  simp only [hsh, hco, if_false]
  by_cases hv : s.visible = true
  · simp only [hv, if_true]
    cases hm : s.output_mode with
    | active =>
      by_cases hlen : 0 < s.shell_surfaces.length
      · refine ⟨s.shell_surfaces.map SEv.destroyShell ++
            s.surfaces.map SEv.destroySurface ++ [SEv.resetCounter], [], ?_, ?_, ?_, ?_⟩
        · simp [hlen, List.append_assoc]
        · exact destroys_no_create s
        · simp
        · simp
      · have hnil : s.shell_surfaces = [] :=
          List.eq_nil_of_length_eq_zero (by omega)
        refine ⟨s.shell_surfaces.map SEv.destroyShell ++
            s.surfaces.map SEv.destroySurface ++ [SEv.resetCounter],
            [SEv.createSurface s.next_id none, SEv.forceDraw], ?_, ?_, ?_, ?_⟩
        · simp [hlen, List.append_assoc]
        · exact destroys_no_create s
        · intro e he
          simp only [List.mem_cons, List.mem_singleton] at he
          rcases he with h | h | h
          · subst h; exact Or.inl rfl
          · subst h; exact Or.inr rfl
          · simp at h
        · intro _
          refine ⟨by simp, ?_, ?_⟩
          · intro i hi; rw [hnil] at hi; simp at hi
          · intro i hi; simp [hi]
    | all =>
      refine ⟨s.shell_surfaces.map SEv.destroyShell ++
          s.surfaces.map SEv.destroySurface ++ [SEv.resetCounter],
          (createAll s.next_id s.outputs).2 ++ [SEv.forceDraw], ?_, ?_, ?_, ?_⟩
      · simp [List.append_assoc]
      · exact destroys_no_create s
      · intro e he
        simp only [List.mem_append, List.mem_singleton] at he
        rcases he with h | h
        · exact Or.inl (createAll_events s.outputs s.next_id e h)
        · exact Or.inr h
      · intro _
        refine ⟨by simp, ?_, ?_⟩
        · intro i hi; simp [hi]
        · intro i hi; simp [hi]
  · simp only [hv, if_false]
    refine ⟨s.shell_surfaces.map SEv.destroyShell ++
        s.surfaces.map SEv.destroySurface ++ [SEv.resetCounter], [], ?_, ?_, ?_, ?_⟩
    · simp [List.append_assoc]
    · exact destroys_no_create s
    · simp
    · simp

theorem teardownThenCreate_prepend (r t : List SEv) (a b : List Nat)
    (hr : ∀ e ∈ r, SEv.isCreate e = false)
    (h : teardownThenCreate a b t) : teardownThenCreate a b (r ++ t) := by
  obtain ⟨t₁, t₂, heq, h₁, h₂, h₃⟩ := h
  refine ⟨r ++ t₁, t₂, by rw [heq, List.append_assoc], ?_, h₂, ?_⟩
  · intro e he
    rcases List.mem_append.mp he with h | h
    · exact hr e h
    · exact h₁ e h
  · intro hc
    obtain ⟨hreset, hshell, hsurf⟩ := h₃ hc
    exact ⟨List.mem_append.mpr (Or.inr hreset),
      fun i hi => List.mem_append.mpr (Or.inr (hshell i hi)),
      fun i hi => List.mem_append.mpr (Or.inr (hsurf i hi))⟩

theorem outputs_changed_counter_zero (s : AppInner)
    (h : (outputs_changed s).2 ≠ []) :
    ((outputs_changed s).1).configured_surfaces = 0 := by
  unfold outputs_changed at *
  by_cases hsh : s.hasShell = false
  · simp [hsh] at h
  by_cases hco : s.hasCompositor = false
  · simp [hsh, hco] at h
  simp only [hsh, hco, if_false] at *
  by_cases hv : s.visible = true
  · simp only [hv, if_true]
    cases hm : s.output_mode with
    | active =>
      by_cases hlen : 0 < s.shell_surfaces.length <;> simp [hlen]
    | all => rfl
  · simp [hv]

/-- Claim C2: every output-set or visibility change (outputs_changed itself,
covering any value of the visible flag, and its callers add_output and
remove_output) destroys every existing compositor surface and layer surface
and resets the configured counter to 0 before any replacement surface is
created; whenever the change does anything at all, the resulting configured
counter is 0. -/
theorem C2_teardown_before_create (s : AppInner) :
    teardownThenCreate s.shell_surfaces s.surfaces (outputs_changed s).2 ∧
    ((outputs_changed s).2 ≠ [] → ((outputs_changed s).1).configured_surfaces = 0) ∧
    (∀ id ver, teardownThenCreate s.shell_surfaces s.surfaces (add_output s id ver).2) ∧
    (∀ id, teardownThenCreate s.shell_surfaces s.surfaces (remove_output s id).2) := by
  refine ⟨outputs_changed_teardownThenCreate s, outputs_changed_counter_zero s, ?_, ?_⟩
  · intro id ver
    exact outputs_changed_teardownThenCreate
      { s with outputs := s.outputs ++ [(id, ver)] }
  · intro id
    unfold remove_output
    cases hf : s.outputs.find? (fun o => o.1 = id) with
    | none => exact ⟨[], [], by simp, by simp, by simp, by simp⟩
    | some o =>
      simp only
      refine teardownThenCreate_prepend _ _ _ _ ?_ ?_
      · intro e he
        by_cases h3 : 3 ≤ o.2 <;> simp [h3] at he
        subst he; rfl
      · exact outputs_changed_teardownThenCreate
          { s with outputs := s.outputs.filter (fun p => p.1 ≠ id) }

def c2Inner : AppInner :=
  { hasCompositor := true, hasShell := true, surfaces := [5],
    shell_surfaces := [5], configured_surfaces := 1, outputs := [(1, 3)],
    output_mode := OutputMode.all, visible := true, scale := 1, next_id := 6 }

theorem C2_teardown_before_create_witness :
    teardownThenCreate [5] [5] (outputs_changed c2Inner).2 ∧
    ((outputs_changed c2Inner).1).configured_surfaces = 0 :=
  ⟨(C2_teardown_before_create c2Inner).1,
    (C2_teardown_before_create c2Inner).2.1 (by decide)⟩

/-- Claim C8 (code bug): in Active output mode, a topology change arriving
while a shell surface already exists destroys that surface and resets the
counter, but then returns early: the stale handle is retained, no
replacement surface is created, and no ForceDraw is sent — so the app holds
zero live surfaces, not exactly one. Evaluated at the failing input: Active
mode, visible, compositor and shell bound, one existing surface (id 7), a
second output (id 2, version 3) announced. -/
theorem C8_active_mode_stale_surface :
    (add_output
        { hasCompositor := true, hasShell := true, surfaces := [7],
          shell_surfaces := [7], configured_surfaces := 1, outputs := [(1, 3)],
          output_mode := OutputMode.active, visible := true, scale := 1,
          next_id := 8 } 2 3).2.filter SEv.isCreate = [] ∧
    (add_output
        { hasCompositor := true, hasShell := true, surfaces := [7],
          shell_surfaces := [7], configured_surfaces := 1, outputs := [(1, 3)],
          output_mode := OutputMode.active, visible := true, scale := 1,
          next_id := 8 } 2 3).1.shell_surfaces = [7] ∧
    SEv.destroyShell 7 ∈
      (add_output
        { hasCompositor := true, hasShell := true, surfaces := [7],
          shell_surfaces := [7], configured_surfaces := 1, outputs := [(1, 3)],
          output_mode := OutputMode.active, visible := true, scale := 1,
          next_id := 8 } 2 3).2 ∧
    (add_output
        { hasCompositor := true, hasShell := true, surfaces := [7],
          shell_surfaces := [7], configured_surfaces := 1, outputs := [(1, 3)],
          output_mode := OutputMode.active, visible := true, scale := 1,
          next_id := 8 } 2 3).1.configured_surfaces = 0 ∧
    SEv.forceDraw ∉
      (add_output
        { hasCompositor := true, hasShell := true, surfaces := [7],
          shell_surfaces := [7], configured_surfaces := 1, outputs := [(1, 3)],
          output_mode := OutputMode.active, visible := true, scale := 1,
          next_id := 8 } 2 3).2 := by
  decide

/-! ## App::redraw (src/app.rs)

redraw is modelled as a function of the app state plus the external data it
reads: the widget's size and the report returned by widget.draw (None for a
draw error, propagated as a non-ok result). Wayland and buffer operations
are recorded as trace events in program order. The damage_debug cargo
feature is off in a default build. -/

def damage_debug : Bool := false

/-- Truncating u32-to-i32 cast (the `as i32` casts in redraw). -/
def toI32 (n : Nat) : Int :=
  if n % 2 ^ 32 < 2 ^ 31 then ((n % 2 ^ 32 : Nat) : Int)
  else ((n % 2 ^ 32 : Nat) : Int) - 2 ^ 32

structure DrawReport where
  width : Nat
  height : Nat
  damage : List (Int × Int × Int × Int)
  full_damage : Bool
  deriving DecidableEq, Repr

structure AppState where
  hasWidget : Bool
  inner : AppInner
  pools : PoolState
  last_damage : Option (List (Int × Int × Int × Int))
  last_dim : Nat × Nat
  deriving DecidableEq, Repr

inductive REv where
  | acquire
  | poolResize (bytes : Nat)
  | copy (r : Int × Int × Int × Int)
  | memsetDebug
  | memset
  | widgetDraw (force : Bool)
  | flush
  | bufferCreate (w h stride : Int)
  | setSize (id w h : Nat)
  | attach (id : Nat)
  | damage (id : Nat) (r : Int × Int × Int × Int)
  | commit (id : Nat)
  deriving DecidableEq, Repr

def REv.isSubmit : REv → Bool
  | .attach _ => true
  | .damage _ _ => true
  | .commit _ => true
  | _ => false

def REv.isDamage : REv → Bool
  | .damage _ _ => true
  | _ => false

def REv.isCopy : REv → Bool
  | .copy _ => true
  | _ => false

structure RedrawOut where
  state : AppState
  trace : List REv
  ok : Bool
  deriving DecidableEq, Repr

/-- The damage rectangle covering the whole surface:
(0, 0, size.0 as i32, size.1 as i32). -/
def fullRect (size : Nat × Nat) : Int × Int × Int × Int :=
  (0, 0, toI32 size.1, toI32 size.2)

/-- Mark the given slot's MemPool as holding a live wl_buffer
(consequence of pool.buffer in redraw). -/
def markUsed (p : PoolState) (slot : Nat) : PoolState :=
  if slot = 1 then { p with used1 := true } else { p with used2 := true }

/-- Body of App::redraw after the configure gate and a successful pool
acquisition. `st` already carries the flipped pool switch; `curN` is the
slot handed out as current. Follows src/app.rs lines 227-306. -/
def redrawInner (st : AppState) (curN : Nat) (size : Nat × Nat)
    (drawRes : Option DrawReport) (force : Bool) : RedrawOut :=
  let size_changed : Bool := decide (st.last_dim ≠ size)
  let t0 := [REv.acquire, REv.poolResize ((4 * size.1 * size.2) % 2 ^ 32)]
  let copyStep : List REv × Bool :=
    match st.last_damage with
    | some d =>
      if size_changed then ([], true)
      else ((if damage_debug then [REv.memsetDebug] else []) ++ d.map REv.copy, force)
    | none => ([], true)
  let tCopy := copyStep.1
  let force1 := copyStep.2
  let tMemset := if force1 then [REv.memset] else []
  match drawRes with
  | none => ⟨st, t0 ++ tCopy ++ tMemset ++ [REv.widgetDraw force1], false⟩
  | some report =>
    let tDraw := [REv.widgetDraw force1, REv.flush]
    if !size_changed && !report.full_damage && report.damage.isEmpty then
      ⟨st, t0 ++ tCopy ++ tMemset ++ tDraw, true⟩
    else
      let tBuf := [REv.bufferCreate (toI32 report.width) (toI32 report.height)
        (4 * toI32 size.1)]
      let tSet := if size_changed then
          st.inner.shell_surfaces.map
            (fun i => REv.setSize i (size.1 / st.inner.scale) (size.2 / st.inner.scale))
        else []
      let dmgRects := if damage_debug || force1 || report.full_damage then [fullRect size]
        else report.damage
      let tSub := st.inner.surfaces.flatMap
        (fun i => REv.attach i :: (dmgRects.map (fun r => REv.damage i r) ++ [REv.commit i]))
      let newDamage := if force1 || report.full_damage then [fullRect size] else report.damage
      ⟨{ st with pools := markUsed st.pools curN,
                 last_damage := some newDamage, last_dim := size },
        t0 ++ tCopy ++ tMemset ++ tDraw ++ tBuf ++ tSet ++ tSub, true⟩

/-- App::redraw. Returns immediately (Ok, no effects) when no widget is set
or when the configure gate `shell_surfaces.len() == configured` fails; then
acquires a pool pair, returning Ok with no submission when the pool yields
none; otherwise proceeds with redrawInner. -/
def redraw (st : AppState) (size : Nat × Nat) (drawRes : Option DrawReport)
    (force : Bool) : RedrawOut :=
  if st.hasWidget = false then ⟨st, [], true⟩
  else if st.inner.shell_surfaces.length ≠ st.inner.configured_surfaces then ⟨st, [], true⟩
  else
    match (st.pools.pool).2 with
    | none => ⟨{ st with pools := (st.pools.pool).1 }, [REv.acquire], true⟩
    | some lc => redrawInner { st with pools := (st.pools.pool).1 } lc.2 size drawRes force

theorem redraw_gate_fail (st : AppState) (size : Nat × Nat)
    (drawRes : Option DrawReport) (force : Bool)
    (h : st.inner.shell_surfaces.length ≠ st.inner.configured_surfaces) :
    redraw st size drawRes force = ⟨st, [], true⟩ := by
  unfold redraw
  by_cases hw : st.hasWidget = false
  · simp [hw]
  · simp [hw, h]

/-- Claim C1: if the number of live shell surfaces differs from the
configured-surface counter, redraw returns Ok immediately with no effects at
all (no pool acquisition, attach, damage or commit, state untouched); and
any attach/damage/commit in a redraw trace implies the counter equals the
live surface count. -/
theorem C1_redraw_gate (st : AppState) (size : Nat × Nat)
    (drawRes : Option DrawReport) (force : Bool) :
    (st.inner.shell_surfaces.length ≠ st.inner.configured_surfaces →
      redraw st size drawRes force = ⟨st, [], true⟩) ∧
    (∀ e ∈ (redraw st size drawRes force).trace, REv.isSubmit e = true →
      st.inner.shell_surfaces.length = st.inner.configured_surfaces) := by
  refine ⟨redraw_gate_fail st size drawRes force, ?_⟩
  intro e he _
  by_cases h : st.inner.shell_surfaces.length = st.inner.configured_surfaces
  · exact h
  · rw [redraw_gate_fail st size drawRes force h] at he
    simp at he

/-- Claim C5: when the slot selected as current is still marked in use by
the display server, DoubleMemPool::pool returns None, and the redraw cycle
observing it returns Ok having only flipped the pool switch: its trace is
just the acquisition attempt, with no attach, damage or commit. -/
theorem C5_busy_pool_skips_frame (st : AppState) (size : Nat × Nat)
    (drawRes : Option DrawReport) (force : Bool)
    (hw : st.hasWidget = true)
    (hgate : st.inner.shell_surfaces.length = st.inner.configured_surfaces)
    (hbusy : slotUsed st.pools (curSlot st.pools.switch) = true) :
    (st.pools.pool).2 = none ∧
    redraw st size drawRes force =
      ⟨{ st with pools := { st.pools with switch := !st.pools.switch } }, [REv.acquire], true⟩ ∧
    ∀ e ∈ (redraw st size drawRes force).trace, REv.isSubmit e = false := by
  have hnone := pool_snd_none st.pools hbusy
  have hfst := pool_fst st.pools
  refine ⟨hnone, ?_, ?_⟩
  · unfold redraw
    simp [hw, hgate, hnone, hfst]
  · intro e he
    unfold redraw at he
    simp [hw, hgate, hnone] at he
    subst he
    rfl

/-- A representative inner state: one surface (id 0), configured. -/
def sampleInner : AppInner :=
  { hasCompositor := true, hasShell := true, surfaces := [0],
    shell_surfaces := [0], configured_surfaces := 1, outputs := [(1, 3)],
    output_mode := OutputMode.all, visible := true, scale := 1, next_id := 1 }

def gateFailState : AppState :=
  { hasWidget := true, inner := { sampleInner with configured_surfaces := 0 },
    pools := ⟨false, false, false⟩, last_damage := none, last_dim := (0, 0) }

theorem C1_redraw_gate_witness :
    redraw gateFailState (3, 3) none false = ⟨gateFailState, [], true⟩ :=
  (C1_redraw_gate gateFailState (3, 3) none false).1 (by decide)

def busyState : AppState :=
  { hasWidget := true, inner := sampleInner,
    pools := ⟨false, false, true⟩, last_damage := none, last_dim := (0, 0) }

theorem C5_busy_pool_skips_frame_witness :
    (busyState.pools.pool).2 = none ∧
    redraw busyState (3, 3) none false =
      ⟨{ busyState with
          pools := { busyState.pools with switch := !busyState.pools.switch } },
        [REv.acquire], true⟩ ∧
    ∀ e ∈ (redraw busyState (3, 3) none false).trace, REv.isSubmit e = false :=
  C5_busy_pool_skips_frame busyState (3, 3) none false
    (by decide) (by decide) (by decide)

theorem filter_isDamage_damage_map (i : Nat) (rs : List (Int × Int × Int × Int)) :
    (rs.map (fun r => REv.damage i r)).filter REv.isDamage =
      rs.map (fun r => REv.damage i r) := by
  induction rs with
  | nil => rfl
  | cons r rest ih => simp [List.filter_cons, REv.isDamage, ih]

theorem filter_isDamage_flatMap (l : List Nat) (rs : List (Int × Int × Int × Int)) :
    (l.flatMap (fun i =>
        REv.attach i :: (rs.map (fun r => REv.damage i r) ++ [REv.commit i]))).filter
        REv.isDamage =
      l.flatMap (fun i => rs.map (fun r => REv.damage i r)) := by
  induction l with
  | nil => rfl
  | cons i rest ih =>
    simp only [List.flatMap_cons, List.filter_append, List.filter_cons]
    rw [ih]
    simp [REv.isDamage, filter_isDamage_damage_map]

theorem flatMap_singleton_damage (l : List Nat) (r : Int × Int × Int × Int) :
    l.flatMap (fun i => [REv.damage i r]) = l.map (fun i => REv.damage i r) := by
  induction l with
  | nil => rfl
  | cons i rest ih => simp [ih]

theorem filter_isDamage_setSize (l : List Nat) (a b : Nat) :
    (l.map (fun i => REv.setSize i a b)).filter REv.isDamage = [] := by
  induction l with
  | nil => rfl
  | cons i rest ih => simp [List.filter_cons, REv.isDamage, ih]

theorem filter_isCopy_damage_map (i : Nat) (rs : List (Int × Int × Int × Int)) :
    (rs.map (fun r => REv.damage i r)).filter REv.isCopy = [] := by
  induction rs with
  | nil => rfl
  | cons r rest ih => simp [List.filter_cons, REv.isCopy, ih]

theorem filter_isCopy_setSize (l : List Nat) (a b : Nat) :
    (l.map (fun i => REv.setSize i a b)).filter REv.isCopy = [] := by
  induction l with
  | nil => rfl
  | cons i rest ih => simp [List.filter_cons, REv.isCopy, ih]

theorem filter_isCopy_submit (l : List Nat) (rs : List (Int × Int × Int × Int)) :
    (l.flatMap (fun i =>
        REv.attach i :: (rs.map (fun r => REv.damage i r) ++ [REv.commit i]))).filter
        REv.isCopy = [] := by
  induction l with
  | nil => rfl
  | cons i rest ih =>
    simp [List.filter_append, List.filter_cons, REv.isCopy, ih,
      filter_isCopy_damage_map]

/-- In the resize case (last_dim differs from the widget size) redraw's body
takes these exact steps: full memset, forced widget draw, one full-surface
damage rectangle per surface, and records full damage. -/
theorem redrawInner_resize_eq (st : AppState) (curN : Nat) (size : Nat × Nat)
    (report : DrawReport) (force : Bool) (hsz : st.last_dim ≠ size) :
    redrawInner st curN size (some report) force =
      ⟨{ st with pools := markUsed st.pools curN,
                 last_damage := some [fullRect size], last_dim := size },
        [REv.acquire, REv.poolResize ((4 * size.1 * size.2) % 2 ^ 32)] ++
        [REv.memset] ++ [REv.widgetDraw true, REv.flush] ++
        [REv.bufferCreate (toI32 report.width) (toI32 report.height) (4 * toI32 size.1)] ++
        st.inner.shell_surfaces.map
          (fun i => REv.setSize i (size.1 / st.inner.scale) (size.2 / st.inner.scale)) ++
        st.inner.surfaces.flatMap
          (fun i => REv.attach i ::
            (([fullRect size].map (fun r => REv.damage i r)) ++ [REv.commit i])),
        true⟩ := by
  unfold redrawInner
  have hsz' : decide (st.last_dim ≠ size) = true := by simpa using hsz
  cases hld : st.last_damage <;> simp [hsz', damage_debug]

/-- Claim C6: when the widget's reported size differs from the recorded
last dimensions, redraw copies no damage forward, calls the widget with
force = true, and the submitted frame carries exactly one full-surface
damage rectangle per surface (never the widget's partial rectangles);
the recorded damage becomes the single full rectangle. Premises: widget
set, configure gate open, current pool slot free, so a frame is actually
submitted. -/
theorem C6_resize_forces_full_damage (st : AppState) (size : Nat × Nat)
    (report : DrawReport) (force : Bool)
    (hw : st.hasWidget = true)
    (hgate : st.inner.shell_surfaces.length = st.inner.configured_surfaces)
    (hfree : slotUsed st.pools (curSlot st.pools.switch) = false)
    (hsz : st.last_dim ≠ size) :
    (∀ e ∈ (redraw st size (some report) force).trace, REv.isCopy e = false) ∧
    REv.widgetDraw true ∈ (redraw st size (some report) force).trace ∧
    (redraw st size (some report) force).trace.filter REv.isDamage =
      st.inner.surfaces.map (fun i => REv.damage i (fullRect size)) ∧
    (redraw st size (some report) force).state.last_damage = some [fullRect size] := by
  have hsome := pool_snd_some st.pools hfree
  have hred : redraw st size (some report) force =
      redrawInner { st with pools := (st.pools.pool).1 }
        (curSlot st.pools.switch) size (some report) force := by
    unfold redraw
    simp [hw, hgate, hsome]
  rw [hred, redrawInner_resize_eq { st with pools := (st.pools.pool).1 }
    (curSlot st.pools.switch) size report force hsz]
  refine ⟨?_, ?_, ?_, rfl⟩
  · intro e he
    have hfil : (([REv.acquire, REv.poolResize ((4 * size.1 * size.2) % 2 ^ 32)] ++
        [REv.memset] ++ [REv.widgetDraw true, REv.flush] ++
        [REv.bufferCreate (toI32 report.width) (toI32 report.height) (4 * toI32 size.1)] ++
        st.inner.shell_surfaces.map
          (fun i => REv.setSize i (size.1 / st.inner.scale) (size.2 / st.inner.scale)) ++
        st.inner.surfaces.flatMap
          (fun i => REv.attach i ::
            (([fullRect size].map (fun r => REv.damage i r)) ++ [REv.commit i]))).filter
          REv.isCopy) = [] := by
      simp [List.filter_append, List.filter_cons, REv.isCopy,
        filter_isCopy_setSize, filter_isCopy_submit]
      rintro a x hx (rfl | rfl | rfl) <;> rfl
    have := List.filter_eq_nil_iff.mp hfil e he
    simpa using this
  · simp
  · simp only [List.filter_append, filter_isDamage_flatMap,
      filter_isDamage_setSize, List.filter_cons, REv.isDamage]
    simp [REv.isDamage, flatMap_singleton_damage]

def busyFreeState : AppState :=
  { hasWidget := true, inner := sampleInner,
    pools := ⟨false, false, false⟩, last_damage := some [(0, 0, 2, 2)],
    last_dim := (2, 2) }

def sampleReport : DrawReport :=
  { width := 4, height := 4, damage := [(1, 1, 1, 1)], full_damage := false }

theorem C6_resize_forces_full_damage_witness :
    (∀ e ∈ (redraw busyFreeState (4, 4) (some sampleReport) false).trace,
      REv.isCopy e = false) ∧
    REv.widgetDraw true ∈ (redraw busyFreeState (4, 4) (some sampleReport) false).trace ∧
    (redraw busyFreeState (4, 4) (some sampleReport) false).trace.filter REv.isDamage =
      busyFreeState.inner.surfaces.map (fun i => REv.damage i (fullRect (4, 4))) ∧
    (redraw busyFreeState (4, 4) (some sampleReport) false).state.last_damage =
      some [fullRect (4, 4)] :=
  C6_resize_forces_full_damage busyFreeState (4, 4) sampleReport false
    (by decide) (by decide) (by decide) (by decide)

theorem filter_isSubmit_copy_map (d : List (Int × Int × Int × Int)) :
    (d.map REv.copy).filter REv.isSubmit = [] := by
  induction d with
  | nil => rfl
  | cons r rest ih => simp [List.filter_cons, REv.isSubmit, ih]

/-- Skip branch of redraw (size unchanged, no full damage, empty damage
list) when a previous frame exists: the old damage is copied forward, the
widget is drawn, and nothing is attached or committed; the recorded state
is untouched. -/
theorem redrawInner_skip_eq_some (st : AppState) (curN : Nat) (size : Nat × Nat)
    (report : DrawReport) (force : Bool) (d : List (Int × Int × Int × Int))
    (hld : st.last_damage = some d) (hdim : st.last_dim = size)
    (hfd : report.full_damage = false) (hdm : report.damage = []) :
    redrawInner st curN size (some report) force =
      ⟨st, [REv.acquire, REv.poolResize ((4 * size.1 * size.2) % 2 ^ 32)] ++
        d.map REv.copy ++ (if force then [REv.memset] else []) ++
        [REv.widgetDraw force, REv.flush], true⟩ := by
  unfold redrawInner
  simp [hld, hdim, hfd, hdm, damage_debug]

/-- Skip branch of redraw when no frame was ever submitted: forced memset
and draw, but (the damage list being empty and the size unchanged) nothing
is attached or committed and the state is untouched. -/
theorem redrawInner_skip_eq_none (st : AppState) (curN : Nat) (size : Nat × Nat)
    (report : DrawReport) (force : Bool)
    (hld : st.last_damage = none) (hdim : st.last_dim = size)
    (hfd : report.full_damage = false) (hdm : report.damage = []) :
    redrawInner st curN size (some report) force =
      ⟨st, [REv.acquire, REv.poolResize ((4 * size.1 * size.2) % 2 ^ 32)] ++
        [REv.memset] ++ [REv.widgetDraw true, REv.flush], true⟩ := by
  unfold redrawInner
  simp [hld, hdim, hfd, hdm, damage_debug]

theorem redraw_no_submit_aux (st : AppState) (size : Nat × Nat)
    (report : DrawReport) (force : Bool)
    (hdim : st.last_dim = size) (hfd : report.full_damage = false)
    (hdm : report.damage = []) (hforce : force = false) :
    (∀ e ∈ (redraw st size (some report) force).trace, REv.isSubmit e = false) ∧
    (redraw st size (some report) force).state.last_dim = size := by
  by_cases hg : st.inner.shell_surfaces.length ≠ st.inner.configured_surfaces
  · rw [redraw_gate_fail st size (some report) force hg]
    exact ⟨by simp, hdim⟩
  cases hwv : st.hasWidget with
  | false =>
    have hz : redraw st size (some report) force = ⟨st, [], true⟩ := by
      unfold redraw
      rw [hwv]
      simp
    rw [hz]
    exact ⟨by simp, hdim⟩
  | true =>
    cases hp : (st.pools.pool).2 with
    | none =>
      have hz : redraw st size (some report) force =
          ⟨{ st with pools := (st.pools.pool).1 }, [REv.acquire], true⟩ := by
        unfold redraw
        rw [hwv]
        simp [hg, hp]
      rw [hz]
      refine ⟨?_, hdim⟩
      intro e he
      simp only [List.mem_singleton] at he
      subst he
      rfl
    | some lc =>
      have hred : redraw st size (some report) force =
          redrawInner { st with pools := (st.pools.pool).1 } lc.2 size
            (some report) force := by
        unfold redraw
        rw [hwv]
        simp [hg, hp]
      rw [hred]
      cases hld : st.last_damage with
      | none =>
        rw [redrawInner_skip_eq_none
          { hasWidget := st.hasWidget, inner := st.inner, pools := st.pools.pool.1,
            last_damage := none, last_dim := st.last_dim }
          lc.2 size report force rfl hdim hfd hdm]
        refine ⟨?_, hdim⟩
        intro e he
        have hfil : (([REv.acquire, REv.poolResize ((4 * size.1 * size.2) % 2 ^ 32)] ++
            [REv.memset] ++ [REv.widgetDraw true, REv.flush]).filter REv.isSubmit) = [] := by
          simp [List.filter_append, List.filter_cons, REv.isSubmit]
        have := List.filter_eq_nil_iff.mp hfil e he
        simpa using this
      | some d =>
        rw [redrawInner_skip_eq_some
          { hasWidget := st.hasWidget, inner := st.inner, pools := st.pools.pool.1,
            last_damage := some d, last_dim := st.last_dim }
          lc.2 size report force d rfl hdim hfd hdm]
        refine ⟨?_, hdim⟩
        intro e he
        have hfil : (([REv.acquire, REv.poolResize ((4 * size.1 * size.2) % 2 ^ 32)] ++
            d.map REv.copy ++ (if force then [REv.memset] else []) ++
            [REv.widgetDraw force, REv.flush]).filter REv.isSubmit) = [] := by
          subst hforce
          simp [List.filter_append, List.filter_cons, REv.isSubmit,
            filter_isSubmit_copy_map]
        have := List.filter_eq_nil_iff.mp hfil e he
        simpa using this

/-- Claim C7: a redraw whose widget size is unchanged, whose draw report has
an empty damage list and no full_damage flag, called without force, issues
no attach, damage or commit; and since it leaves the recorded dimensions
unchanged, running the redraw step again with no intervening state change
issues no attach, damage or commit the second time either. -/
theorem C7_unchanged_skip_idempotent (st : AppState) (size : Nat × Nat)
    (report : DrawReport) (force : Bool)
    (hdim : st.last_dim = size) (hfd : report.full_damage = false)
    (hdm : report.damage = []) (hforce : force = false) :
    (∀ e ∈ (redraw st size (some report) force).trace, REv.isSubmit e = false) ∧
    (∀ e ∈ (redraw (redraw st size (some report) force).state
        size (some report) force).trace, REv.isSubmit e = false) := by
  have h1 := redraw_no_submit_aux st size report force hdim hfd hdm hforce
  have h2 := redraw_no_submit_aux (redraw st size (some report) force).state
    size report force h1.2 hfd hdm hforce
  exact ⟨h1.1, h2.1⟩

def emptyReport : DrawReport :=
  { width := 2, height := 2, damage := [], full_damage := false }

theorem C7_unchanged_skip_idempotent_witness :
    (∀ e ∈ (redraw busyFreeState (2, 2) (some emptyReport) false).trace,
      REv.isSubmit e = false) ∧
    (∀ e ∈ (redraw (redraw busyFreeState (2, 2) (some emptyReport) false).state
        (2, 2) (some emptyReport) false).trace, REv.isSubmit e = false) :=
  C7_unchanged_skip_idempotent busyFreeState (2, 2) emptyReport false
    (by decide) (by decide) (by decide) (by decide)

/-! ## Command queue and event loop (src/cmd.rs, src/main.rs) and the
keyboard callback of App::new (src/app.rs)

The mouse scroll deltas (f64) are not carried: no claim depends on them.
The drain loop of main is modelled by runQueue with explicit fuel; a run
ends when the queue is empty (the real loop then blocks on poll) or when
Exit is dispatched (the real loop returns). -/

structure ModifiersState where
  ctrl : Bool
  alt : Bool
  shift : Bool
  caps_lock : Bool
  logo : Bool
  num_lock : Bool
  deriving DecidableEq, Repr

inductive KeyState where
  | pressed
  | released
  deriving DecidableEq, Repr

inductive Cmd where
  | exit
  | draw
  | forceDraw
  | mouseClick (btn : Nat) (pos : Nat × Nat)
  | mouseScroll (pos : Nat × Nat)
  | keyboard (key : Nat) (modifiers : ModifiersState) (interpreted : Option String)
  deriving DecidableEq, Repr

def XKB_KEY_c : Nat := 0x63

/-- The command the keyboard callback enqueues for a key event (None when
nothing is enqueued, i.e. for releases): on a press of XKB_KEY_c with ctrl
held it enqueues Cmd::Exit, on any other press a Cmd::Keyboard. -/
def key_event_cmd (keysym : Nat) (state : KeyState) (mods : ModifiersState)
    (interpreted : Option String) : Option Cmd :=
  match state with
  | KeyState.pressed =>
    if keysym = XKB_KEY_c ∧ mods.ctrl = true then some Cmd.exit
    else some (Cmd.keyboard keysym mods interpreted)
  | KeyState.released => none

/-- Observable action of dispatching one command in the main loop. -/
inductive Act where
  | redrawCall (force : Bool)
  | widgetKey (key : Nat)
  | widgetClick (btn : Nat)
  | widgetScroll
  | exited
  deriving DecidableEq, Repr

/-- One dispatch step of the main loop match: the action performed and the
commands it pushes back onto the queue (every input handler re-enqueues a
Draw after delivering the input to the widget). -/
def dispatchCmd : Cmd → Act × List Cmd
  | Cmd.exit => (Act.exited, [])
  | Cmd.draw => (Act.redrawCall false, [])
  | Cmd.forceDraw => (Act.redrawCall true, [])
  | Cmd.mouseClick btn _ => (Act.widgetClick btn, [Cmd.draw])
  | Cmd.mouseScroll _ => (Act.widgetScroll, [Cmd.draw])
  | Cmd.keyboard key _ _ => (Act.widgetKey key, [Cmd.draw])

/-- The drain phase of the main loop: pop the front command, dispatch it,
append whatever it enqueued to the back, repeat; Exit returns from the
loop, leaving the rest of the queue unprocessed. -/
def runQueue : Nat → List Cmd → List Act
  | _, [] => []
  | 0, _ :: _ => []
  | fuel + 1, c :: rest =>
    if c = Cmd.exit then [Act.exited]
    else (dispatchCmd c).1 :: runQueue fuel (rest ++ (dispatchCmd c).2)

def Cmd.isInput : Cmd → Bool
  | Cmd.mouseClick _ _ => true
  | Cmd.mouseScroll _ => true
  | Cmd.keyboard _ _ _ => true
  | _ => false

def actOf (c : Cmd) : Act := (dispatchCmd c).1

def inputCount (q : List Cmd) : Nat := (q.filter Cmd.isInput).length

theorem dispatch_enqueued (c : Cmd) :
    (dispatchCmd c).2 = if c.isInput then [Cmd.draw] else [] := by
  cases c <;> rfl

theorem inputCount_cons (c : Cmd) (q : List Cmd) :
    inputCount (c :: q) = (if c.isInput then 1 else 0) + inputCount q := by
  unfold inputCount
  rw [List.filter_cons]
  by_cases h : c.isInput <;> simp [h, Nat.add_comm]

theorem runQueue_drains_draws (k fuel : Nat) (hfuel : k ≤ fuel) :
    runQueue fuel (List.replicate k Cmd.draw) = List.replicate k (Act.redrawCall false) := by
  induction k generalizing fuel with
  | zero => simp [runQueue]
  | succ n ih =>
    cases fuel with
    | zero => omega
    | succ f =>
      rw [List.replicate_succ]
      show runQueue (f + 1) (Cmd.draw :: List.replicate n Cmd.draw) = _
      rw [runQueue]
      simp only [reduceCtorEq, if_false]
      rw [List.replicate_succ]
      simp only [dispatchCmd, List.append_nil]
      rw [ih f (by omega)]

theorem runQueue_spec (q : List Cmd) :
    ∀ (k fuel : Nat), Cmd.exit ∉ q → q.length + k + inputCount q ≤ fuel →
    runQueue fuel (q ++ List.replicate k Cmd.draw) =
      q.map actOf ++ List.replicate (k + inputCount q) (Act.redrawCall false) := by
  induction q with
  | nil =>
    intro k fuel _ hfuel
    simp only [List.nil_append, List.map_nil, inputCount, List.filter_nil,
      List.length_nil]
    rw [runQueue_drains_draws k fuel (by simpa using hfuel)]
    simp
  | cons c q' ih =>
    intro k fuel hex hfuel
    have hc : c ≠ Cmd.exit := fun h => hex (h ▸ List.mem_cons_self c q')
    have hex' : Cmd.exit ∉ q' := fun h => hex (List.mem_cons_of_mem c h)
    cases fuel with
    | zero => rw [List.length_cons] at hfuel; omega
    | succ f =>
      rw [List.cons_append, runQueue, if_neg hc, dispatch_enqueued]
      by_cases hin : c.isInput
      · rw [if_pos hin]
        have harr : q' ++ List.replicate k Cmd.draw ++ [Cmd.draw] =
            q' ++ List.replicate (k + 1) Cmd.draw := by
          rw [List.append_assoc, ← List.replicate_succ' k Cmd.draw]
        rw [harr, ih (k + 1) f hex'
          (by rw [inputCount_cons, if_pos hin, List.length_cons] at hfuel; omega)]
        rw [inputCount_cons, if_pos hin]
        simp [actOf, Nat.add_assoc]
      · rw [if_neg hin, List.append_nil]
        rw [ih k f hex'
          (by rw [inputCount_cons, if_neg hin, List.length_cons] at hfuel; omega)]
        rw [inputCount_cons, if_neg hin]
        simp [actOf]

def plainMods : ModifiersState :=
  { ctrl := false, alt := false, shift := false, caps_lock := false,
    logo := false, num_lock := false }

/-- Claim C3 counterexample: with enqueue order [KeyInput(30), KeyInput(31)],
the loop dispatches KeyInput(31) before the Draw that KeyInput(30) enqueued:
the dispatch sequence is key 30, key 31, draw, draw, and no redraw occurs
before widget delivery of key 31 — refuting that the full effect of the
first input, including its Draw, is processed before the second input. -/
theorem C3_draw_after_second_input :
    runQueue 10 [Cmd.keyboard 30 plainMods none, Cmd.keyboard 31 plainMods none] =
      [Act.widgetKey 30, Act.widgetKey 31, Act.redrawCall false, Act.redrawCall false] ∧
    ¬ ∃ i : Fin 4, ∃ j : Fin 4,
      (i : Nat) < (j : Nat) ∧
      (runQueue 10 [Cmd.keyboard 30 plainMods none,
        Cmd.keyboard 31 plainMods none]).getD i Act.exited = Act.redrawCall false ∧
      (runQueue 10 [Cmd.keyboard 30 plainMods none,
        Cmd.keyboard 31 plainMods none]).getD j Act.exited = Act.widgetKey 31 := by
  decide

/-- Claim C3 (amended): commands are processed strictly in enqueue order —
for any exit-free queue the dispatch sequence starts with exactly the queued
commands in order — and every Draw enqueued by an input in the queue is
dispatched only after all commands already enqueued, appearing as the block
of redraws at the tail (one per input). -/
theorem C3_fifo_order (q : List Cmd) (fuel : Nat)
    (hex : Cmd.exit ∉ q) (hfuel : q.length + inputCount q ≤ fuel) :
    runQueue fuel q = q.map actOf ++
      List.replicate (inputCount q) (Act.redrawCall false) := by
  have := runQueue_spec q 0 fuel hex (by omega)
  simpa using this

theorem C3_fifo_order_witness :
    runQueue 10 [Cmd.keyboard 30 plainMods none, Cmd.keyboard 31 plainMods none] =
      [Cmd.keyboard 30 plainMods none, Cmd.keyboard 31 plainMods none].map actOf ++
        List.replicate
          (inputCount [Cmd.keyboard 30 plainMods none, Cmd.keyboard 31 plainMods none])
          (Act.redrawCall false) :=
  C3_fifo_order [Cmd.keyboard 30 plainMods none, Cmd.keyboard 31 plainMods none] 10
    (by decide) (by decide)

/-- Claim C9: a press of the c key with ctrl held enqueues Cmd::Exit rather
than a Keyboard command, so the keystroke is not delivered to the widget,
and dispatching that command terminates the event loop: the run ends at the
Exit with no widget delivery and the rest of the queue unprocessed. -/
theorem C9_ctrl_c_exits (mods : ModifiersState) (interp : Option String)
    (rest : List Cmd) (fuel : Nat) (hctrl : mods.ctrl = true) :
    key_event_cmd XKB_KEY_c KeyState.pressed mods interp = some Cmd.exit ∧
    (∀ k ks i, key_event_cmd XKB_KEY_c KeyState.pressed mods interp ≠
      some (Cmd.keyboard k ks i)) ∧
    runQueue (fuel + 1) (Cmd.exit :: rest) = [Act.exited] ∧
    ∀ key, Act.widgetKey key ∉ runQueue (fuel + 1) (Cmd.exit :: rest) := by
  have h1 : key_event_cmd XKB_KEY_c KeyState.pressed mods interp = some Cmd.exit := by
    unfold key_event_cmd
    rw [if_pos ⟨rfl, hctrl⟩]
  have h3 : runQueue (fuel + 1) (Cmd.exit :: rest) = [Act.exited] := by
    rw [runQueue, if_pos rfl]
  refine ⟨h1, ?_, h3, ?_⟩
  · intro k ks i
    rw [h1]
    simp
  · intro key
    rw [h3]
    simp

theorem C9_ctrl_c_exits_witness :
    key_event_cmd XKB_KEY_c KeyState.pressed { plainMods with ctrl := true } none =
      some Cmd.exit ∧
    (∀ k ks i, key_event_cmd XKB_KEY_c KeyState.pressed
      { plainMods with ctrl := true } none ≠ some (Cmd.keyboard k ks i)) ∧
    runQueue 3 (Cmd.exit :: [Cmd.draw]) = [Act.exited] ∧
    ∀ key, Act.widgetKey key ∉ runQueue 3 (Cmd.exit :: [Cmd.draw]) :=
  C9_ctrl_c_exits { plainMods with ctrl := true } none [Cmd.draw] 2 (by decide)

end Wlgreet
